import Mathlib

/-!
Verification of the IFEval-pp constraint-checker engine.

This file gives a shallow embedding of the checker predicates of
`src/src/instructions.py` and of the conflict-table utility of
`src/src/instructions_registry.py`, and proves / refutes the frozen claims
about them.

Modelling conventions:
- Python strings are Lean `String`s; character-level work is done on
  `String.data : List Char`.
- The responses under test are ordinary text, and the regular-expression
  classes used by the code (`\s`, `.`) are modelled at ASCII granularity
  (`pyIsSpace` below models the six ASCII whitespace characters matched by
  Python's `\s`); `.` matches every character except a newline.
- External library calls that are not part of this repository
  (`instructions_util.count_sentences`, `langdetect.detect`) are
  parameters of the embedded checkers, per the spec's external-leaf
  contracts.
- Python functions that can fall off the end of an `if`/`elif` chain
  (returning `None`) are embedded with result type `Option Bool`:
  `none` is Python's `None`, `some b` a real boolean verdict.
-/

/-- ASCII whitespace, as matched by Python's `str.strip()` and the regex
class `\s` on the ASCII range: space, tab, newline, carriage return,
vertical tab, form feed. -/
def pyIsSpace (c : Char) : Bool :=
  c == ' ' || c == '\t' || c == '\n' || c == '\r' || c == '\x0b' || c == '\x0c'

/-- Python `str.strip()` on a character list: drop whitespace from both ends. -/
def pyStrip (l : List Char) : List Char :=
  ((l.dropWhile pyIsSpace).reverse.dropWhile pyIsSpace).reverse

/-- Drop a given character from both ends, like Python `str.strip(ch)`
(which removes every occurrence of `ch` at either end, not just one). -/
def pyStripChar (ch : Char) (l : List Char) : List Char :=
  ((l.dropWhile (· == ch)).reverse.dropWhile (· == ch)).reverse

/-- Python `str.lower()` at ASCII granularity. -/
def pyLower (l : List Char) : List Char :=
  l.map Char.toLower

/-- `NumberOfSentences.check_following`, comparison stage
(src/src/instructions.py lines 158-166).  The Python code binds
`num_sentences = instructions_util.count_sentences(value)` and then runs an
`if`/`elif` chain over the relation string with tolerance window 2 and no
final `else`: an unrecognized relation falls through and the method returns
Python `None`, embedded here as `none`. -/
def NumberOfSentences.compare (num_sentences threshold : Int) (relation : String) : Option Bool :=
  if relation = "at most" then some (decide (num_sentences ≤ threshold))
  else if relation = "at least" then some (decide (num_sentences ≥ threshold))
  else if relation = "around" then some (decide ((num_sentences - threshold).natAbs ≤ 2))
  else if relation = "less than" then some (decide (num_sentences < threshold))
  else none

/-- `NumberOfSentences.check_following` (src/src/instructions.py lines
129-166).  `count_sentences` lives in `instructions_util`, which is not part
of this repository's sources; per the spec's external-leaf contract it is a
parameter returning the sentence count of the response. -/
def NumberOfSentences.checkFollowing (countSentences : String → Int)
    (value : String) (num_sentences : Int) (relation : String) : Option Bool :=
  NumberOfSentences.compare (countSentences value) num_sentences relation

/-- `KeywordFrequencyChecker.check_following`, comparison stage
(src/src/instructions.py lines 452-459): same `if`/`elif` chain with
tolerance window 5 and no final `else`, applied to the whole-word
case-insensitive occurrence count of the keyword.  An unrecognized relation
again makes the method return Python `None`. -/
def KeywordFrequencyChecker.compare (actual_occurrences frequency : Int)
    (relation : String) : Option Bool :=
  if relation = "at most" then some (decide (actual_occurrences ≤ frequency))
  else if relation = "at least" then some (decide (actual_occurrences ≥ frequency))
  else if relation = "around" then some (decide ((actual_occurrences - frequency).natAbs ≤ 5))
  else if relation = "less than" then some (decide (actual_occurrences < frequency))
  else none

/-- C1: the claim says an unrecognized relation fails fast with a
ConfigurationError.  The code instead falls off the end of the `if`/`elif`
chain: at the concrete unrecognized relation `"exactly"` both
comparator-based checkers return Python `None` (no exception is raised),
contradicting the `Raise: ValueError` promise in `NumberOfSentences`'s own
docstring. -/
theorem unknown_relation_returns_none :
    NumberOfSentences.compare 3 5 "exactly" = none ∧
    KeywordFrequencyChecker.compare 3 5 "exactly" = none := by
  constructor <;> rfl

/-- C2: the comparator semantics of the sentence-count checker: `at most`
is `actual ≤ threshold`, `at least` is `actual ≥ threshold`, `around` is
`|actual - threshold| ≤ 2` (the sentence-family window), `less than` is
`actual < threshold`; and at boundary equality `at most` and `at least` are
satisfied while `less than` is not. -/
theorem sentence_comparator_semantics :
    ∀ a t : Int,
      (NumberOfSentences.compare a t "at most" = some true ↔ a ≤ t) ∧
      (NumberOfSentences.compare a t "at least" = some true ↔ a ≥ t) ∧
      (NumberOfSentences.compare a t "around" = some true ↔ (a - t).natAbs ≤ 2) ∧
      (NumberOfSentences.compare a t "less than" = some true ↔ a < t) ∧
      NumberOfSentences.compare t t "at most" = some true ∧
      NumberOfSentences.compare t t "at least" = some true ∧
      NumberOfSentences.compare t t "less than" = some false := by
  intro a t
  refine ⟨?_, ?_, ?_, ?_, ?_, ?_, ?_⟩ <;>
    simp [NumberOfSentences.compare]

/-- One iteration of the outer loop of `conflict_make`
(src/src/instructions_registry.py lines 82-85) for dictionary key `key`:
`for k in conflicts[key]: conflicts[k].add(key)` followed by
`conflicts[key].add(key)`.  Reading the whole loop body at once: position
`j` of the table gains the element `key` exactly when `j ∈ conflicts[key]`
(at the start of this iteration) or `j = key`; all other positions are
untouched.  Constraint ids are modelled as naturals, the dictionary as a
function to finite sets. -/
def processKey (T : Nat → Finset Nat) (key : Nat) (j : Nat) : Finset Nat :=
  if j ∈ T key ∨ j = key then insert key (T j) else T j

/-- `conflict_make` (src/src/instructions_registry.py lines 71-86): the
outer `for key in conflicts` loop visits the dictionary keys in insertion
order, modelled by the list `keys`.  The Python function mutates its
argument in place and then returns that same object, so this definition
denotes both the returned mapping and the state of the input mapping after
the call.  (Python would raise `KeyError` if some set contained an id that
is not a dictionary key; the theorems record that precondition as a
closedness hypothesis.) -/
def conflictMake (keys : List Nat) (T : Nat → Finset Nat) : Nat → Finset Nat :=
  keys.foldl processKey T

theorem processKey_subset (T : Nat → Finset Nat) (key j : Nat) :
    T j ⊆ processKey T key j := by
  unfold processKey
  split
  · exact Finset.subset_insert _ _
  · exact Finset.Subset.refl _

theorem conflictMake_subset (keys : List Nat) :
    ∀ (T : Nat → Finset Nat) (j : Nat), T j ⊆ conflictMake keys T j := by
  induction keys with
  | nil => intro T j; exact Finset.Subset.refl _
  | cons k rest ih =>
    intro T j
    simp only [conflictMake, List.foldl_cons]
    exact (processKey_subset T k j).trans (ih (processKey T k) j)

theorem conflictMake_refl_mem (keys : List Nat) :
    ∀ (T : Nat → Finset Nat) (a : Nat), a ∈ keys → a ∈ conflictMake keys T a := by
  induction keys with
  | nil => intro T a h; cases h
  | cons k rest ih =>
    intro T a h
    simp only [conflictMake, List.foldl_cons]
    rcases List.mem_cons.mp h with h | h
    · subst h
      refine conflictMake_subset rest (processKey T a) a ?_
      unfold processKey
      rw [if_pos (Or.inr rfl)]
      exact Finset.mem_insert_self _ _
    · exact ih (processKey T k) a h

theorem conflictMake_mem_of_init (keys : List Nat) :
    ∀ (T : Nat → Finset Nat) (a b : Nat), a ∈ keys → b ∈ T a →
      a ∈ conflictMake keys T b := by
  induction keys with
  | nil => intro T a b h _; cases h
  | cons k rest ih =>
    intro T a b h hb
    simp only [conflictMake, List.foldl_cons]
    rcases List.mem_cons.mp h with h | h
    · subst h
      refine conflictMake_subset rest (processKey T a) b ?_
      unfold processKey
      rw [if_pos (Or.inl hb)]
      exact Finset.mem_insert_self _ _
    · exact ih (processKey T k) a b h (processKey_subset T k a hb)

theorem conflictMake_mem_inv (keys : List Nat) :
    ∀ (T : Nat → Finset Nat) (a b : Nat), b ∈ conflictMake keys T a →
      b ∈ T a ∨ a ∈ conflictMake keys T b := by
  induction keys with
  | nil => intro T a b h; exact Or.inl h
  | cons k rest ih =>
    intro T a b h
    simp only [conflictMake, List.foldl_cons] at h ⊢
    rcases ih (processKey T k) a b h with h1 | h1
    · unfold processKey at h1
      by_cases hc : a ∈ T k ∨ a = k
      · rw [if_pos hc] at h1
        rcases Finset.mem_insert.mp h1 with hbk | hba
        · subst hbk
          right
          refine conflictMake_subset rest (processKey T b) b ?_
          unfold processKey
          rw [if_pos (Or.inr rfl)]
          rcases hc with h2 | h2
          · exact Finset.mem_insert_of_mem h2
          · rw [h2]; exact Finset.mem_insert_self _ _
        · exact Or.inl hba
      · rw [if_neg hc] at h1
        exact Or.inl h1
    · exact Or.inr h1

theorem conflictMake_symm_mem (keys : List Nat) (T : Nat → Finset Nat)
    (a b : Nat) (ha : a ∈ keys) (h : b ∈ conflictMake keys T a) :
    a ∈ conflictMake keys T b := by
  rcases conflictMake_mem_inv keys T a b h with h1 | h1
  · exact conflictMake_mem_of_init keys T a b ha h1
  · exact h1

/-- C3, counterexample to purity: `conflict_make` mutates its argument in
place (`conflicts[k].add(key)`, `conflicts[key].add(key)`) and returns the
same object, so the state of the input mapping after the call is the
returned mapping.  At the concrete input `{0: set()}` the input's set at
key 0 is `{0}` after the call, no longer the empty set it held before: the
input mapping was modified, so `conflict_make` is not pure. -/
theorem conflictMake_mutates_input :
    conflictMake [0] (fun _ => (∅ : Finset Nat)) 0 ≠ (∅ : Finset Nat) := by
  decide

/-- C3 (amended): `conflict_make` returns a mapping that is reflexive
(every processed id's set contains that id) and symmetric (if B is in A's
set then A is in B's set); it is not pure, however: the input mapping is
updated in place and ends up equal to the returned mapping.  The
hypotheses `hb` and `hclosed` record the domain on which the Python
function runs without a `KeyError`: every id mentioned in a set is itself
a dictionary key. -/
theorem conflictMake_symmetric_reflexive (keys : List Nat) (T : Nat → Finset Nat)
    (a b : Nat) (ha : a ∈ keys) (hb : b ∈ keys)
    (hclosed : ∀ k ∈ keys, ∀ j ∈ T k, j ∈ keys) :
    a ∈ conflictMake keys T a ∧
    (b ∈ conflictMake keys T a → a ∈ conflictMake keys T b) := by
  constructor
  · exact conflictMake_refl_mem keys T a ha
  · intro h
    exact conflictMake_symm_mem keys T a b ha h

theorem conflictMake_symmetric_reflexive_witness :
    (0 : Nat) ∈ conflictMake [0, 1] (fun j => if j = 0 then {1} else ∅) 0 ∧
    ((1 : Nat) ∈ conflictMake [0, 1] (fun j => if j = 0 then {1} else ∅) 0 →
      (0 : Nat) ∈ conflictMake [0, 1] (fun j => if j = 0 then {1} else ∅) 1) :=
  conflictMake_symmetric_reflexive [0, 1] (fun j => if j = 0 then {1} else ∅)
    0 1 (by decide) (by decide) (by decide)

theorem foldl_processKey_fixed (keys : List Nat) :
    ∀ T : Nat → Finset Nat, (∀ k ∈ keys, processKey T k = T) →
      List.foldl processKey T keys = T := by
  induction keys with
  | nil => intro T _; rfl
  | cons k rest ih =>
    intro T h
    simp only [List.foldl_cons]
    rw [h k (List.mem_cons_self k rest)]
    exact ih T (fun x hx => h x (List.mem_cons_of_mem k hx))

theorem processKey_eq_self (T : Nat → Finset Nat) (key : Nat)
    (hrefl : key ∈ T key) (hsym : ∀ j, j ∈ T key → key ∈ T j) :
    processKey T key = T := by
  funext j
  unfold processKey
  split
  · next h =>
    rcases h with h | h
    · exact Finset.insert_eq_self.mpr (hsym j h)
    · subst h; exact Finset.insert_eq_self.mpr hrefl
  · rfl

/-- C9: `conflict_make` is idempotent: applying it a second time to the
table produced by a first application changes nothing, because the first
application already made every set reflexive and symmetric, so every
`add` of the second pass is a no-op.  `hclosed` records the Python
precondition that every id mentioned in a set is a dictionary key. -/
theorem conflictMake_idempotent (keys : List Nat) (T : Nat → Finset Nat)
    (hclosed : ∀ k ∈ keys, ∀ j ∈ T k, j ∈ keys) :
    conflictMake keys (conflictMake keys T) = conflictMake keys T := by
  simp only [conflictMake]
  apply foldl_processKey_fixed
  intro k hk
  apply processKey_eq_self
  · exact conflictMake_refl_mem keys T k hk
  · intro j hj
    exact conflictMake_symm_mem keys T k j hk hj

theorem conflictMake_idempotent_witness :
    conflictMake [0, 1] (conflictMake [0, 1] (fun j => if j = 0 then {1} else ∅)) =
      conflictMake [0, 1] (fun j => if j = 0 then {1} else ∅) :=
  conflictMake_idempotent [0, 1] (fun j => if j = 0 then {1} else ∅) (by decide)

/-- Python `str.isupper` at ASCII granularity: at least one cased
character, and no cased character is lowercase. -/
def pyIsUpper (s : String) : Bool :=
  s.data.any (fun c => c.isUpper || c.isLower) &&
    s.data.all (fun c => !((c.isUpper || c.isLower) && c.isLower))

/-- Python `str.islower` at ASCII granularity: at least one cased
character, and no cased character is uppercase. -/
def pyIsLower (s : String) : Bool :=
  s.data.any (fun c => c.isUpper || c.isLower) &&
    s.data.all (fun c => !((c.isUpper || c.isLower) && c.isUpper))

/-- `ResponseLanguageChecker.check_following` (src/src/instructions.py
lines 120-126).  `langdetect.detect` is an external library; it is
modelled as a parameter returning `some code` on success and `none` when
it raises `LangDetectException`.  On success the code is compared to the
expected language; the `except` branch logs and returns `False`. -/
def ResponseLanguageChecker.checkFollowing (detect : String → Option String)
    (value language : String) : Bool :=
  match detect value with
  | some code => code == language
  | none => false

/-- `CapitalLettersEnglishChecker.check_following`
(src/src/instructions.py lines 788-794).  The `try` body is
`return value.isupper() and langdetect.detect(value) == "en"`: Python's
`and` short-circuits, so when `isupper()` is false the method returns
`False` without ever invoking detection; only when `isupper()` is true is
`detect` called, and only then can the `except` branch return `True`. -/
def CapitalLettersEnglishChecker.checkFollowing (detect : String → Option String)
    (value : String) : Bool :=
  if pyIsUpper value then
    match detect value with
    | some code => code == "en"
    | none => true
  else false

/-- `LowercaseLettersEnglishChecker.check_following`
(src/src/instructions.py lines 814-820): same shape with `islower()`. -/
def LowercaseLettersEnglishChecker.checkFollowing (detect : String → Option String)
    (value : String) : Bool :=
  if pyIsLower value then
    match detect value with
    | some code => code == "en"
    | none => true
  else false

/-- C4, counterexample: the claim says that whenever language detection
fails on the response, `change_case:english_capital` and
`change_case:english_lowercase` return true.  Take the response `"123"`
and a detector that fails on it (langdetect raises on digit-only text):
because `"123".isupper()` is false, the `and` short-circuits, detection is
never consulted, and the capital checker returns false — likewise the
lowercase checker — contradicting the claimed fail-open outcome. -/
theorem detection_failure_counterexample :
    (fun _ : String => (none : Option String)) "123" = none ∧
    CapitalLettersEnglishChecker.checkFollowing
      (fun _ => none) "123" = false ∧
    LowercaseLettersEnglishChecker.checkFollowing
      (fun _ => none) "123" = false := by
  refine ⟨rfl, ?_, ?_⟩ <;> decide

/-- C4 (amended): when language detection fails on the response,
`language:response_language` returns false (fail-closed);
`change_case:english_capital` returns true (fail-open) provided the
response passes the `isupper` pre-check — otherwise the conjunction
short-circuits to false before detection is invoked — and symmetrically
`change_case:english_lowercase` with `islower`. -/
theorem detection_failure_policies (detect : String → Option String)
    (value language : String) (hfail : detect value = none) :
    ResponseLanguageChecker.checkFollowing detect value language = false ∧
    (pyIsUpper value = true →
      CapitalLettersEnglishChecker.checkFollowing detect value = true) ∧
    (pyIsUpper value = false →
      CapitalLettersEnglishChecker.checkFollowing detect value = false) ∧
    (pyIsLower value = true →
      LowercaseLettersEnglishChecker.checkFollowing detect value = true) ∧
    (pyIsLower value = false →
      LowercaseLettersEnglishChecker.checkFollowing detect value = false) := by
  unfold ResponseLanguageChecker.checkFollowing
  unfold CapitalLettersEnglishChecker.checkFollowing
  unfold LowercaseLettersEnglishChecker.checkFollowing
  rw [hfail]
  refine ⟨rfl, ?_, ?_, ?_, ?_⟩ <;> intro h <;> simp [h]

theorem detection_failure_policies_witness :
    ResponseLanguageChecker.checkFollowing (fun _ => none) "ABC" "en" = false ∧
    (pyIsUpper "ABC" = true →
      CapitalLettersEnglishChecker.checkFollowing (fun _ => none) "ABC" = true) ∧
    (pyIsUpper "ABC" = false →
      CapitalLettersEnglishChecker.checkFollowing (fun _ => none) "ABC" = false) ∧
    (pyIsLower "ABC" = true →
      LowercaseLettersEnglishChecker.checkFollowing (fun _ => none) "ABC" = true) ∧
    (pyIsLower "ABC" = false →
      LowercaseLettersEnglishChecker.checkFollowing (fun _ => none) "ABC" = false) :=
  detection_failure_policies (fun _ => none) "ABC" "en" rfl

/-- `EndChecker.check_following` (src/src/instructions.py lines 695-701).
The response is transformed by `value.strip().strip('"').lower()` — trim,
then remove every surrounding double-quote character, then lowercase —
while the phrase is transformed by `end_phrase.strip().lower()` only (no
quote removal); the verdict is `value.endswith(end_phrase)` on the two
transformed strings. -/
def EndChecker.checkFollowing (value end_phrase : String) : Bool :=
  (pyLower (pyStrip end_phrase.data)).isSuffixOf
    (pyLower (pyStripChar '"' (pyStrip value.data)))

/-- Modelled from the spec sentence for C7, which is about the
normalization the claim asserts (not the one the code performs): both
strings are normalized by trimming, removing ONE layer of surrounding
quotes, and case-folding. -/
def claimEndNormalize (s : String) : List Char :=
  let t := pyStrip s.data
  pyLower
    (if 2 ≤ t.length ∧ t.head? = some '"' ∧ t.getLast? = some '"' then
      (t.drop 1).dropLast
    else t)

/-- C7, counterexample: with response `done` and phrase `"done"`
(surrounded by literal double quotes), the claimed normalization makes
both strings `done`, so the claim predicts the check succeeds; the code,
however, never removes quotes from the phrase — only from the response —
so it tests whether `done` ends with `"done"` and returns false. -/
theorem end_checker_claim_counterexample :
    EndChecker.checkFollowing "done" "\"done\"" = false ∧
    (claimEndNormalize "\"done\"").isSuffixOf (claimEndNormalize "done") = true := by
  constructor <;> decide

/-- C7 (amended): `startend:end_checker` normalizes the response by
trimming, removing all surrounding double-quote characters, and
case-folding, but normalizes the end phrase by trimming and case-folding
only (no quote removal); it returns true iff the normalized response ends
with the normalized phrase. -/
theorem end_checker_characterization (value end_phrase : String) :
    EndChecker.checkFollowing value end_phrase = true ↔
      pyLower (pyStrip end_phrase.data) <:+
        pyLower (pyStripChar '"' (pyStrip value.data)) := by
  unfold EndChecker.checkFollowing
  exact List.isSuffixOf_iff_suffix

/-- The match-counting pass of `re.findall(r"\[.*?\]", value)`
(src/src/instructions.py line 190), as a one-pass automaton over the
characters.  The regex matches a `[`, then a shortest run of non-newline
characters, then the first following `]`; the scan resumes after each
match.  A `[` with no `]` before the next newline (or the end of input)
never matches — and then no `[` between it and that newline can match
either, so the automaton may simply drop the pending bracket at a newline.
State: `true` while inside a pending bracket, plus the count so far. -/
def countPlaceholdersAux : List Char → Bool → Nat → Nat
  | [], _, k => k
  | c :: rest, true, k =>
    if c == ']' then countPlaceholdersAux rest false (k + 1)
    else if c == '\n' then countPlaceholdersAux rest false k
    else countPlaceholdersAux rest true k
  | c :: rest, false, k =>
    if c == '[' then countPlaceholdersAux rest true k
    else countPlaceholdersAux rest false k

/-- `PlaceholderChecker.check_following` (src/src/instructions.py lines
186-192): count the non-greedy bracket spans and require at least
`num_placeholders` of them. -/
def PlaceholderChecker.checkFollowing (value : String) (num_placeholders : Int) : Bool :=
  decide ((countPlaceholdersAux value.data false 0 : Int) ≥ num_placeholders)

/-- A response consisting of `n` copies of the literal `[]`. -/
def repeatBrackets : Nat → List Char
  | 0 => []
  | n + 1 => '[' :: ']' :: repeatBrackets n

theorem countPlaceholders_repeatBrackets (n : Nat) :
    ∀ k : Nat, countPlaceholdersAux (repeatBrackets n) false k = k + n := by
  induction n with
  | zero => intro k; rfl
  | succ m ih =>
    intro k
    show countPlaceholdersAux ('[' :: ']' :: repeatBrackets m) false k = k + (m + 1)
    simp only [countPlaceholdersAux]
    norm_num
    rw [ih (k + 1)]
    omega

/-- C10: a literal `[]` counts as a placeholder (the non-greedy inner
match may be empty), so a response of `n ≥ 1` copies of `[]` has
placeholder count exactly `n`, and `detectable_content:number_placeholders`
accepts it iff `n ≥ num_placeholders`. -/
theorem placeholder_empty_brackets_count (n : Nat) (num_placeholders : Int)
    (hn : 1 ≤ n) :
    countPlaceholdersAux (repeatBrackets n) false 0 = n ∧
    (PlaceholderChecker.checkFollowing (String.mk (repeatBrackets n))
        num_placeholders = true ↔ (n : Int) ≥ num_placeholders) := by
  have hc : countPlaceholdersAux (repeatBrackets n) false 0 = n := by
    rw [countPlaceholders_repeatBrackets n 0]; omega
  refine ⟨hc, ?_⟩
  unfold PlaceholderChecker.checkFollowing
  show decide ((countPlaceholdersAux (repeatBrackets n) false 0 : Int) ≥ num_placeholders) = true ↔ _
  rw [hc]
  exact decide_eq_true_iff

theorem placeholder_empty_brackets_count_witness :
    countPlaceholdersAux (repeatBrackets 2) false 0 = 2 ∧
    (PlaceholderChecker.checkFollowing (String.mk (repeatBrackets 2)) 2 = true ↔
      (2 : Int) ≥ 2) :=
  placeholder_empty_brackets_count 2 2 (by decide)

/-- Scan for occurrences of the literal `***`, splitting the text there
(leftmost match first, resuming after each match), accumulating the
current piece in reverse in `acc`. -/
def splitTripleAux : List Char → List Char → List (List Char)
  | [], acc => [acc.reverse]
  | '*' :: '*' :: '*' :: rest, acc => acc.reverse :: splitTripleAux rest []
  | c :: rest, acc => splitTripleAux rest (c :: acc)

/-- Remove trailing ASCII whitespace. -/
def rstripWs (l : List Char) : List Char :=
  (l.reverse.dropWhile pyIsSpace).reverse

/-- Remove leading ASCII whitespace. -/
def lstripWs (l : List Char) : List Char :=
  l.dropWhile pyIsSpace

/-- Strip the pieces that follow the first separator: each loses the
whitespace adjacent to the separator before it; every piece except the
last also loses the whitespace adjacent to the separator after it. -/
def stripTail : List (List Char) → List (List Char)
  | [] => []
  | [p] => [lstripWs p]
  | p :: rest => lstripWs (rstripWs p) :: stripTail rest

/-- Strip separator-adjacent whitespace from every piece: the first piece
keeps its leading whitespace, the last keeps its trailing whitespace. -/
def boundaryStrip : List (List Char) → List (List Char)
  | [] => []
  | [p] => [p]
  | p :: rest => rstripWs p :: stripTail rest

/-- `re.split(r"\s*\*\*\*\s*", value)` (src/src/instructions.py line 354).
A match of this pattern is a (possibly empty) whitespace run immediately
followed by `***` followed by a greedy whitespace run: since whitespace
characters are never `*`, the regex matches exactly at each leftmost
literal `***` extended by the whitespace runs adjacent to it.  Splitting
on the pattern therefore equals splitting on the literal `***` and then
removing the whitespace adjacent to each separator — which is what this
definition does. -/
def splitStars (cs : List Char) : List (List Char) :=
  boundaryStrip (splitTripleAux cs [])

/-- The `for index, paragraph in enumerate(paragraphs)` loop of
`ParagraphChecker.check_following` (src/src/instructions.py lines
357-362): `n` is `len(paragraphs)`, `i` the current index, `num` the
running count.  A whitespace-only piece at index 0 or `n-1` decrements the
count; a whitespace-only piece anywhere else makes the method return
`False` at once (modelled as `none`). -/
def paraLoop (n : Nat) : Nat → List (List Char) → Int → Option Int
  | _, [], num => some num
  | i, p :: rest, num =>
    if (pyStrip p).isEmpty then
      (if i = 0 ∨ i = n - 1 then paraLoop n (i + 1) rest (num - 1) else none)
    else paraLoop n (i + 1) rest num

/-- The final verdict from the loop's outcome: the early `return False`
(`none`) stays false; otherwise the adjusted count must equal the
requirement. -/
def verdictOfLoop (o : Option Int) (num_paragraphs : Int) : Bool :=
  match o with
  | none => false
  | some m => m == num_paragraphs

/-- `ParagraphChecker.check_following` (src/src/instructions.py lines
352-364): split on the `***` divider, run the adjustment loop, and
require the adjusted count to equal `num_paragraphs`. -/
def ParagraphChecker.checkFollowing (value : String) (num_paragraphs : Int) : Bool :=
  verdictOfLoop
    (paraLoop (splitStars value.data).length 0 (splitStars value.data)
      ((splitStars value.data).length : Int))
    num_paragraphs

/-- The last piece of a split (`[]` for an empty split). -/
def lastPiece : List (List Char) → List Char
  | [] => []
  | [p] => p
  | _ :: rest => lastPiece rest

/-- How many segments the loop of `ParagraphChecker.check_following`
discards from the count: the leading segment if whitespace-only, and the
trailing segment if whitespace-only (a single segment can only be
discarded once). -/
def droppedBoundaryEmpties : List (List Char) → Nat
  | [] => 0
  | [p] => if (pyStrip p).isEmpty then 1 else 0
  | p :: rest =>
    (if (pyStrip p).isEmpty then 1 else 0) +
      (if (pyStrip (lastPiece rest)).isEmpty then 1 else 0)

theorem lastPiece_cons_of_ne (p : List Char) (rest : List (List Char))
    (h : rest ≠ []) : lastPiece (p :: rest) = lastPiece rest := by
  cases rest with
  | nil => exact absurd rfl h
  | cons q r => rfl


theorem paraLoop_nil (n i : Nat) (num : Int) : paraLoop n i [] num = some num := rfl

theorem paraLoop_cons (n i : Nat) (p : List Char) (rest : List (List Char)) (num : Int) :
    paraLoop n i (p :: rest) num =
      if (pyStrip p).isEmpty then
        (if i = 0 ∨ i = n - 1 then paraLoop n (i + 1) rest (num - 1) else none)
      else paraLoop n (i + 1) rest num := rfl

theorem verdictOfLoop_none (np : Int) : verdictOfLoop none np = false := rfl

theorem verdictOfLoop_some (m np : Int) : verdictOfLoop (some m) np = (m == np) := rfl


/-- Behaviour of the adjustment loop strictly after index 0: every piece
except the last is interior (a whitespace-only piece there aborts with
`none`); the last piece sits at index `n - 1` and, if whitespace-only,
decrements the count. -/
theorem paraLoop_tail (n : Nat) :
    ∀ (l : List (List Char)) (i : Nat) (num : Int), l ≠ [] →
      i + l.length = n → 1 ≤ i →
      paraLoop n i l num =
        if ∃ p ∈ l.dropLast, (pyStrip p).isEmpty = true then none
        else some (num - (if (pyStrip (lastPiece l)).isEmpty then 1 else 0)) := by
  intro l
  induction l with
  | nil => intro i num h; exact absurd rfl h
  | cons p rest ih =>
    intro i num _ hlen hi
    rw [paraLoop_cons]
    cases rest with
    | nil =>
      have hin : i = n - 1 := by
        simp only [List.length_cons, List.length_nil] at hlen; omega
      have hno : ¬∃ x ∈ ([] : List (List Char)), (pyStrip x).isEmpty = true := by
        simp
      rw [show ([p] : List (List Char)).dropLast = [] from rfl,
        show lastPiece [p] = p from rfl, if_neg hno]
      by_cases hemp : (pyStrip p).isEmpty = true
      · rw [if_pos hemp, if_pos (show i = 0 ∨ i = n - 1 from Or.inr hin),
          paraLoop_nil, if_pos hemp]
      · rw [if_neg hemp, paraLoop_nil, if_neg hemp]
        norm_num
    | cons q r =>
      have hcond : ¬(i = 0 ∨ i = n - 1) := by
        simp only [List.length_cons] at hlen; omega
      rw [show lastPiece (p :: q :: r) = lastPiece (q :: r) from rfl,
        show (p :: q :: r).dropLast = p :: (q :: r).dropLast from rfl]
      by_cases hemp : (pyStrip p).isEmpty = true
      · rw [if_pos hemp, if_neg hcond,
          if_pos (show ∃ x ∈ p :: (q :: r).dropLast, (pyStrip x).isEmpty = true from
            ⟨p, List.mem_cons_self _ _, hemp⟩)]
      · rw [if_neg hemp,
          ih (i + 1) num (by simp)
            (by simp only [List.length_cons] at hlen ⊢; omega) (by omega)]
        have hiff : (∃ x ∈ (q :: r).dropLast, (pyStrip x).isEmpty = true) ↔
            (∃ x ∈ p :: (q :: r).dropLast, (pyStrip x).isEmpty = true) := by
          constructor
          · rintro ⟨x, hx, hxe⟩
            exact ⟨x, List.mem_cons_of_mem p hx, hxe⟩
          · rintro ⟨x, hx, hxe⟩
            rcases List.mem_cons.mp hx with h | h
            · exact absurd (h ▸ hxe) hemp
            · exact ⟨x, h, hxe⟩
        exact if_congr hiff rfl rfl

/-- The full check on an arbitrary split result: true iff no interior
segment is whitespace-only and the segment count, after discarding
whitespace-only leading/trailing segments, equals the requirement. -/
theorem paraCheck_spec (ps : List (List Char)) (np : Int) :
    verdictOfLoop (paraLoop ps.length 0 ps (ps.length : Int)) np = true ↔
      ((∀ p ∈ (ps.drop 1).dropLast, (pyStrip p).isEmpty = false) ∧
        (ps.length : Int) - (droppedBoundaryEmpties ps : Int) = np) := by
  cases ps with
  | nil =>
    rw [paraLoop_nil, verdictOfLoop_some]
    simp [droppedBoundaryEmpties, beq_iff_eq]
  | cons p rest =>
    cases rest with
    | nil =>
      rw [paraLoop_cons]
      by_cases hemp : (pyStrip p).isEmpty = true
      · rw [if_pos hemp, if_pos (Or.inl rfl), paraLoop_nil, verdictOfLoop_some]
        simp [droppedBoundaryEmpties, hemp, beq_iff_eq]
      · rw [if_neg hemp, paraLoop_nil, verdictOfLoop_some]
        simp [droppedBoundaryEmpties, hemp, beq_iff_eq]
    | cons q r =>
      have hlen1 : 1 + (q :: r).length = (p :: q :: r).length := by
        simp only [List.length_cons]; omega
      have step : verdictOfLoop (paraLoop (p :: q :: r).length 0 (p :: q :: r)
            (((p :: q :: r).length : Nat) : Int)) np =
          verdictOfLoop (paraLoop (p :: q :: r).length 1 (q :: r)
            ((((p :: q :: r).length : Nat) : Int) -
              (if (pyStrip p).isEmpty then 1 else 0))) np := by
        rw [paraLoop_cons]
        by_cases hemp : (pyStrip p).isEmpty = true
        · rw [if_pos hemp, if_pos (Or.inl rfl), if_pos hemp]
        · rw [if_neg hemp, if_neg hemp]
          norm_num
      rw [step, paraLoop_tail (p :: q :: r).length (q :: r) 1 _ (by simp) hlen1 le_rfl]
      rw [show ((p :: q :: r).drop 1).dropLast = (q :: r).dropLast from rfl]
      by_cases hex : ∃ x ∈ (q :: r).dropLast, (pyStrip x).isEmpty = true
      · rw [if_pos hex, verdictOfLoop_none]
        constructor
        · intro h; cases h
        · rintro ⟨hall, _⟩
          rcases hex with ⟨x, hx, hxe⟩
          have hcontra := hall x hx
          rw [hxe] at hcontra
          cases hcontra
      · rw [if_neg hex, verdictOfLoop_some, beq_iff_eq]
        have hall : ∀ x ∈ (q :: r).dropLast, (pyStrip x).isEmpty = false := by
          intro x hx
          by_cases h : (pyStrip x).isEmpty = true
          · exact absurd ⟨x, hx, h⟩ hex
          · simpa using h
        have harith :
            (((((p :: q :: r).length : Nat) : Int) -
                (if (pyStrip p).isEmpty then 1 else 0)) -
              (if (pyStrip (lastPiece (q :: r))).isEmpty then 1 else 0) = np) ↔
            ((((p :: q :: r).length : Nat) : Int) -
              (droppedBoundaryEmpties (p :: q :: r) : Int) = np) := by
          rw [show droppedBoundaryEmpties (p :: q :: r) =
            (if (pyStrip p).isEmpty then 1 else 0) +
              (if (pyStrip (lastPiece (q :: r))).isEmpty then 1 else 0) from rfl]
          split_ifs <;> push_cast <;> omega
        rw [harith]
        exact ⟨fun h => ⟨hall, h⟩, fun h => h.2⟩

/-- C5: `length_constraints:number_paragraphs` splits on the
whitespace-tolerant `***` divider, discards whitespace-only leading and
trailing segments from the count, fails on any whitespace-only interior
segment, and otherwise succeeds iff the remaining count equals
`num_paragraphs`; in particular `A***B***C` yields 3 paragraphs and
`***A***` yields 1. -/
theorem paragraph_checker_spec :
    (∀ (value : String) (np : Int),
      ParagraphChecker.checkFollowing value np = true ↔
        ((∀ p ∈ ((splitStars value.data).drop 1).dropLast,
            (pyStrip p).isEmpty = false) ∧
          ((splitStars value.data).length : Int) -
            (droppedBoundaryEmpties (splitStars value.data) : Int) = np)) ∧
    ParagraphChecker.checkFollowing "A***B***C" 3 = true ∧
    ParagraphChecker.checkFollowing "***A***" 1 = true := by
  refine ⟨?_, by decide, by decide⟩
  intro value np
  unfold ParagraphChecker.checkFollowing
  exact paraCheck_spec (splitStars value.data) np

/-- `re.split(r"\n\n", value)` (src/src/instructions.py line 554): split
on the literal two-newline separator, leftmost occurrence first, resuming
right after each separator; `acc` accumulates the current piece in
reverse. -/
def splitNNAux : List Char → List Char → List (List Char)
  | [], acc => [acc.reverse]
  | '\n' :: '\n' :: rest, acc => acc.reverse :: splitNNAux rest []
  | c :: rest, acc => splitNNAux rest (c :: acc)

/-- Split a response into paragraphs at blank-line pairs. -/
def splitNN (cs : List Char) : List (List Char) :=
  splitNNAux cs []

/-- The punctuation set of `ParagraphFirstWordCheck.check_following`
(src/src/instructions.py line 569). -/
def fwPunctuation (c : Char) : Bool :=
  c == '.' || c == ',' || c == '?' || c == '!' || c == '\'' || c == '"'

/-- First-word extraction of `ParagraphFirstWordCheck.check_following`
(src/src/instructions.py lines 568-578) on a stripped, non-empty
paragraph: `paragraph.split()[0]` is the first whitespace-delimited
token; it is then stripped (a no-op on a token), its leading apostrophes
and then leading double quotes are removed, and the result is copied
lowercased up to (excluding) the first punctuation character. -/
def firstWordOf (paragraph : List Char) : List Char :=
  pyLower
    (((pyStrip ((paragraph.dropWhile pyIsSpace).takeWhile
          (fun c => !pyIsSpace c))).dropWhile (· == '\'')).dropWhile (· == '"')
      |>.takeWhile (fun c => !fwPunctuation c))

/-- The paragraph count after the `for paragraph in paragraphs` loop of
`ParagraphFirstWordCheck.check_following` (src/src/instructions.py lines
555-559): the length of the split minus the number of whitespace-only
pieces. -/
def adjustedParagraphCount (ps : List (List Char)) : Int :=
  (ps.length : Int) - ((ps.countP (fun p => (pyStrip p).isEmpty) : Nat) : Int)

/-- `ParagraphFirstWordCheck.check_following` (src/src/instructions.py
lines 531-583).  The nth paragraph is looked up in the original split
list (index `nth_paragraph - 1`), not among the non-empty pieces.  Python
would index from the end for `nth_paragraph ≤ 0`; the instruction's
contract (`Note that n starts from 1` in the source docstring) keeps
`nth_paragraph ≥ 1`, which is the range this embedding models, so the
index is the clamped `(nth_paragraph - 1).toNat`. -/
def ParagraphFirstWordCheck.checkFollowing (value : String)
    (num_paragraphs nth_paragraph : Int) (first_word : String) : Bool :=
  let paragraphs := splitNN value.data
  if nth_paragraph ≤ adjustedParagraphCount paragraphs then
    (if (pyStrip (paragraphs.getD (nth_paragraph - 1).toNat [])).isEmpty then false
    else (adjustedParagraphCount paragraphs == num_paragraphs) &&
      (firstWordOf (pyStrip (paragraphs.getD (nth_paragraph - 1).toNat []))
        == first_word.data))
  else false

/-- C6: `length_constraints:nth_paragraph_first_word` splits the response
on blank-line pairs and drops whitespace-only paragraphs from the count;
it returns true iff that count equals `num_paragraphs`, the 1-indexed
`nth_paragraph` does not exceed the available (counted) paragraphs, the
nth piece of the split is non-empty after stripping, and its first token
— leading quotes removed, truncated at the first punctuation character,
case-folded — equals `first_word`.  The hypothesis records the
instruction's 1-indexed contract (`n starts from 1`). -/
theorem paragraph_first_word_spec (value : String) (np nth : Int) (fw : String)
    (h1 : 1 ≤ nth) :
    ParagraphFirstWordCheck.checkFollowing value np nth fw = true ↔
      (adjustedParagraphCount (splitNN value.data) = np ∧
        nth ≤ adjustedParagraphCount (splitNN value.data) ∧
        pyStrip ((splitNN value.data).getD (nth - 1).toNat []) ≠ [] ∧
        firstWordOf (pyStrip ((splitNN value.data).getD (nth - 1).toNat [])) =
          fw.data) := by
  simp only [ParagraphFirstWordCheck.checkFollowing]
  by_cases hle : nth ≤ adjustedParagraphCount (splitNN value.data)
  · rw [if_pos hle]
    by_cases hemp :
        (pyStrip ((splitNN value.data).getD (nth - 1).toNat [])).isEmpty = true
    · rw [if_pos hemp]
      simp only [Bool.false_eq_true, false_iff]
      rintro ⟨-, -, hne, -⟩
      exact hne (List.isEmpty_iff.mp hemp)
    · rw [if_neg hemp]
      simp only [Bool.and_eq_true, beq_iff_eq]
      constructor
      · rintro ⟨hnum, hword⟩
        exact ⟨hnum, hle, fun h => hemp (List.isEmpty_iff.mpr h), hword⟩
      · rintro ⟨hnum, -, -, hword⟩
        exact ⟨hnum, hword⟩
  · rw [if_neg hle]
    simp only [Bool.false_eq_true, false_iff]
    rintro ⟨-, h2, -, -⟩
    exact hle h2

theorem paragraph_first_word_spec_witness :
    ParagraphFirstWordCheck.checkFollowing "Hello world\n\nBye" 2 1 "hello" = true ↔
      (adjustedParagraphCount (splitNN ("Hello world\n\nBye" : String).data) = 2 ∧
        (1 : Int) ≤ adjustedParagraphCount (splitNN ("Hello world\n\nBye" : String).data) ∧
        pyStrip ((splitNN ("Hello world\n\nBye" : String).data).getD
          ((1 : Int) - 1).toNat []) ≠ [] ∧
        firstWordOf (pyStrip ((splitNN ("Hello world\n\nBye" : String).data).getD
          ((1 : Int) - 1).toNat [])) = ("hello" : String).data) :=
  paragraph_first_word_spec "Hello world\n\nBye" 2 1 "hello" (by decide)
